import Mathlib

/-!
# Account-abstraction relayer: admission verification, receipt polling, start-up wiring

Shallow embedding of

* `command/aarelayer/service/aa_verification.go` (`aaVerification.Validate`),
* `command/rootchain/helper/txn.go` (`waitForReceipt`),
* `command/aarelayer/aa_relayer.go` (`runCommand`),
* `command/rootchain/emit/emit.go` (`runCommand`),

followed by the properties established about them.
-/

namespace PolygonEdge

/-! ## Go error values -/

/-- Modelled from the spec: `types.Address` is declared outside the files at hand; it is a
fixed-size byte array compared with `==`, represented here by the number it encodes. -/
structure Address where
  val : Nat
  deriving DecidableEq, Repr

/-- An operand of a formatting call: an address or a string. -/
inductive Operand where
  | address (a : Address)
  | text (s : String)
  deriving DecidableEq, Repr

/-- The package-level error variables that the sources compare errors with:
`http.ErrServerClosed` and `context.Canceled`. Each is one value, told apart from every error
built elsewhere, whatever its text. -/
inductive Sentinel where
  | httpErrServerClosed
  | contextCanceled
  deriving DecidableEq, Repr

/-- A Go `error` value, identified by what built it: a call `errors.New(text)`, a call
`fmt.Errorf(format, a₁, …)` with address or string operands, a call
`fmt.Errorf(format, cause)` with a wrapped cause (`%w`), or a package-level error variable. -/
inductive GoError where
  | errorsNew (text : String)
  | errorf (format : String) (args : List Operand)
  | wrapf (format : String) (cause : GoError)
  | sentinel (s : Sentinel)
  deriving DecidableEq, Repr

/-! ## Transaction model (`command/aarelayer/service`) -/

/-- Modelled from the spec: the `Payload` type is declared outside the files at hand. One call
of a batch: optional destination, value, gas limit (pointers, so possibly nil) and call data. -/
structure Payload where
  To : Option Address
  Value : Option Int
  GasLimit : Option Int
  Input : List Nat
  deriving DecidableEq, Repr

/-- Modelled from the spec: the inner `Transaction` type (claimed sender and ordered payloads). -/
structure Transaction where
  From : Address
  Nonce : Nat
  Payload : List Payload
  deriving DecidableEq, Repr

/-- Modelled from the spec: the signature bytes carried by an `AATransaction`. -/
abbrev aaSignature := List Nat

/-- Modelled from the spec: `AATransaction`, a signed batch. -/
structure AATransaction where
  Signature : aaSignature
  Transaction : Transaction
  deriving DecidableEq, Repr

/-- Modelled from the spec: `AAConfig`, the read-only configuration (contract-creation flag,
sender allow-list, pull interval, receipt poll delay, maximum number of receipt polls). -/
structure AAConfig where
  AllowContractCreation : Bool
  AllowList : List Address
  PullTime : Nat
  ReceiptRetryDelay : Nat
  ReceiptNumRetries : Nat
  deriving DecidableEq, Repr

/-- The methods `Validate` calls that are declared outside the files at hand, taken as
parameters: `aaSignature.IsValid`, `AAConfig.IsAddressAllowed` and
`AATransaction.GetAddressFromSignature(invokerAddress, chainID)`. -/
structure Externals where
  IsValid : aaSignature → Bool
  IsAddressAllowed : AAConfig → Address → Bool
  GetAddressFromSignature : AATransaction → Address → Int → Address

/-- The type `ValidationFunc`: `func(*AATransaction) error`. -/
abbrev ValidationFunc := AATransaction → Option GoError

/-- The struct `aaVerification`; `validationFn` may be nil. -/
structure aaVerification where
  validationFn : Option ValidationFunc
  config : AAConfig
  chainID : Int
  invokerAddress : Address

/-- The constructor `NewAAVerification`. -/
def NewAAVerification (config : AAConfig) (invokerAddress : Address) (chainID : Int)
    (validationFn : Option ValidationFunc) : aaVerification :=
  { validationFn := validationFn, config := config, chainID := chainID,
    invokerAddress := invokerAddress }

/-- The `for _, payload := range tx.Transaction.Payload` loop of `Validate`: the error returned
from inside the loop, or `none` when the loop runs to its end. -/
def validatePayloads (config : AAConfig) (sender : Address) : List Payload → Option GoError
  | [] => none
  | payload :: rest =>
    if payload.GasLimit = none then
      some (GoError.errorf "tx has invalid payload - gas limit not specified: %s" [.address sender])
    else if payload.Value = none then
      some (GoError.errorf "tx has invalid payload - value not specified: %s" [.address sender])
    else if payload.To = none ∧ ¬ config.AllowContractCreation then
      some (GoError.errorf "tx from %s has contract creation payload" [.address sender])
    else
      validatePayloads config sender rest

/-- The method `aaVerification.Validate`; a nil `*AATransaction` is `none`, a nil result error
is `none`. -/
def Validate (ext : Externals) (p : aaVerification) (tx : Option AATransaction) :
    Option GoError :=
  match tx with
  | none => some (GoError.errorsNew "tx is not valid")
  | some tx =>
    if tx.Transaction.Payload.length = 0 then
      some (GoError.errorf "tx from %s does not have any payload" [.address tx.Transaction.From])
    else if ¬ ext.IsValid tx.Signature then
      some (GoError.errorsNew "invalid signature")
    else
      match validatePayloads p.config tx.Transaction.From tx.Transaction.Payload with
      | some err => some err
      | none =>
        if ¬ ext.IsAddressAllowed p.config tx.Transaction.From then
          some (GoError.errorf "tx has from which is not allowed: %s" [.address tx.Transaction.From])
        else
          let address := ext.GetAddressFromSignature tx p.invokerAddress p.chainID
          if tx.Transaction.From ≠ address then
            some (GoError.errorf "invalid tx: expected sender %s but got %s"
              [.address tx.Transaction.From, .address address])
          else
            match p.validationFn with
            | some validationFn => validationFn tx
            | none => none

/-! ### The order of checks, as a specification

`Validate` is compared below with a table-driven validator: a list of checks, applied in the
order of the list, the first failing check giving the result. -/

/-- Check "payload sequence non-empty". -/
def checkPayloadNonEmpty (tx : AATransaction) : Option GoError :=
  if tx.Transaction.Payload = [] then
    some (GoError.errorf "tx from %s does not have any payload" [.address tx.Transaction.From])
  else none

/-- A payload violates the structural rule: no gas limit, no value, or no destination while
contract creation is not allowed. -/
def payloadViolates (config : AAConfig) (payload : Payload) : Bool :=
  payload.GasLimit.isNone || payload.Value.isNone ||
    (payload.To.isNone && !config.AllowContractCreation)

/-- Check "every payload has `GasLimit`, `Value` and (unless contract creation is allowed)
`To`": the error is that of the first payload that violates the rule. -/
def checkPayloadFields (config : AAConfig) (tx : AATransaction) : Option GoError :=
  match tx.Transaction.Payload.find? (payloadViolates config) with
  | none => none
  | some payload =>
    if payload.GasLimit.isNone then
      some (GoError.errorf "tx has invalid payload - gas limit not specified: %s"
        [.address tx.Transaction.From])
    else if payload.Value.isNone then
      some (GoError.errorf "tx has invalid payload - value not specified: %s"
        [.address tx.Transaction.From])
    else
      some (GoError.errorf "tx from %s has contract creation payload" [.address tx.Transaction.From])

/-- Check "signature is well-formed". -/
def checkSignature (ext : Externals) (tx : AATransaction) : Option GoError :=
  if ext.IsValid tx.Signature then none else some (GoError.errorsNew "invalid signature")

/-- Check "`From` is allow-listed". -/
def checkAllowed (ext : Externals) (config : AAConfig) (tx : AATransaction) : Option GoError :=
  if ext.IsAddressAllowed config tx.Transaction.From then none
  else some (GoError.errorf "tx has from which is not allowed: %s" [.address tx.Transaction.From])

/-- Check "recovered signer equals `From`". -/
def checkSigner (ext : Externals) (p : aaVerification) (tx : AATransaction) : Option GoError :=
  if ext.GetAddressFromSignature tx p.invokerAddress p.chainID = tx.Transaction.From then none
  else some (GoError.errorf "invalid tx: expected sender %s but got %s"
    [.address tx.Transaction.From,
     .address (ext.GetAddressFromSignature tx p.invokerAddress p.chainID)])

/-- Check "custom predicate". -/
def checkCustom (p : aaVerification) (tx : AATransaction) : Option GoError :=
  match p.validationFn with
  | some f => f tx
  | none => none

/-- A validator that applies check (1) "tx not nil" and then the given checks in the order of
the list, returning the error of the first one that fails. -/
def validateInOrder (checks : List (AATransaction → Option GoError))
    (tx : Option AATransaction) : Option GoError :=
  match tx with
  | none => some (GoError.errorsNew "tx is not valid")
  | some tx => checks.findSome? (fun check => check tx)

/-- The checks (2)…(7) in the order in which the specification lists them: payload non-empty,
payload fields, signature, allow-list, signer, custom predicate. -/
def checksInSpecOrder (ext : Externals) (p : aaVerification) :
    List (AATransaction → Option GoError) :=
  [checkPayloadNonEmpty, checkPayloadFields p.config, checkSignature ext,
   checkAllowed ext p.config, checkSigner ext p, checkCustom p]

/-- The same checks with the signature check before the payload-field check: payload
non-empty, signature, payload fields, allow-list, signer, custom predicate. -/
def checksInCodeOrder (ext : Externals) (p : aaVerification) :
    List (AATransaction → Option GoError) :=
  [checkPayloadNonEmpty, checkSignature ext, checkPayloadFields p.config,
   checkAllowed ext p.config, checkSigner ext p, checkCustom p]

/-- The built-in checks of `Validate` all pass on `tx`: non-empty payload, well-formed
signature, well-formed payloads, allowed sender, recovered signer equal to `From`. -/
def passesBuiltin (ext : Externals) (config : AAConfig) (invokerAddress : Address)
    (chainID : Int) (tx : AATransaction) : Prop :=
  tx.Transaction.Payload ≠ [] ∧
  ext.IsValid tx.Signature = true ∧
  (∀ payload ∈ tx.Transaction.Payload,
    payload.GasLimit ≠ none ∧ payload.Value ≠ none ∧
      (payload.To ≠ none ∨ config.AllowContractCreation = true)) ∧
  ext.IsAddressAllowed config tx.Transaction.From = true ∧
  ext.GetAddressFromSignature tx invokerAddress chainID = tx.Transaction.From

/-! ### Sample data for evaluating `Validate` -/

/-- Modelled from the spec: `IsAddressAllowed` with an allow-list only ("an empty allow-list
means allow all"). -/
def allowListed (config : AAConfig) (a : Address) : Bool :=
  config.AllowList.isEmpty || config.AllowList.contains a

/-- A concrete choice of the external methods, used to evaluate `Validate` on examples: a
signature is well-formed when it has 65 bytes, the allow-list is the one of the
specification, and the recovered signer is read off the first signature byte when the
domain (invoker `0x1111`, chain `100`) matches and is the zero address otherwise. -/
def sampleExternals : Externals where
  IsValid := fun sig => sig.length = 65
  IsAddressAllowed := allowListed
  GetAddressFromSignature := fun tx invoker chainID =>
    if invoker = ⟨0x1111⟩ ∧ chainID = 100 then ⟨tx.Signature.headD 0⟩ else ⟨0⟩

/-- A configuration without contract creation and with an empty allow-list. -/
def sampleConfig : AAConfig :=
  { AllowContractCreation := false, AllowList := [], PullTime := 5000,
    ReceiptRetryDelay := 50, ReceiptNumRetries := 100 }

/-- A verifier over `sampleConfig` for invoker `0x1111` on chain `100`, without a custom
predicate. -/
def sampleVerifier : aaVerification :=
  NewAAVerification sampleConfig ⟨0x1111⟩ 100 none

/-- A well-formed signature (65 bytes) whose recovered signer is `0xBB`. -/
def goodSignature : aaSignature := 0xBB :: List.replicate 64 1

/-- A well-formed payload `{To: 0xAAA, Value: 0, GasLimit: 21000}`. -/
def goodPayload : Payload :=
  { To := some ⟨0xAAA⟩, Value := some 0, GasLimit := some 21000, Input := [] }

/-- A transaction from `0xBB` that passes every check of `sampleVerifier`. -/
def goodTx : AATransaction :=
  { Signature := goodSignature, Transaction := { From := ⟨0xBB⟩, Nonce := 0, Payload := [goodPayload] } }

/-- A transaction with a payload without gas limit and a signature that is not well-formed. -/
def noGasBadSigTx : AATransaction :=
  { Signature := [],
    Transaction := { From := ⟨0xBB⟩, Nonce := 0,
                     Payload := [{ goodPayload with GasLimit := none }] } }

end PolygonEdge

/-! ## Receipt polling (`command/rootchain/helper/txn.go`) -/

namespace PolygonEdge

/-- Modelled from the spec: `Address.String()` is declared outside the files at hand; the
specification writes addresses as hexadecimal literals such as `0xAAA`, so the rendering is
`0x` followed by the hexadecimal digits. -/
def Address.String (a : Address) : String :=
  "0x" ++ String.mk (Nat.toDigits 16 a.val)

/-- The formatting verbs of `fmt` that the sources use (`%s`, `%v`, `%w`): a verb is replaced
by the text of the next operand. -/
def Sprintf : List Char → List String → List Char
  | '%' :: _ :: rest, arg :: args => arg.data ++ Sprintf rest args
  | c :: rest, args => c :: Sprintf rest args
  | [], _ => []

/-- The text that a formatting verb prints for an operand. -/
def Operand.String : Operand → String
  | Operand.address a => a.String
  | Operand.text s => s

/-- The text of a package-level error variable. -/
def Sentinel.text : Sentinel → String
  | Sentinel.httpErrServerClosed => "http: Server closed"
  | Sentinel.contextCanceled => "context canceled"

/-- The method `Error()` of a Go error value. -/
def GoError.Error : GoError → String
  | GoError.errorsNew text => text
  | GoError.errorf format args => String.mk (Sprintf format.data (args.map Operand.String))
  | GoError.wrapf format cause => String.mk (Sprintf format.data [cause.Error])
  | GoError.sentinel s => s.text

/-- The type `ethgo.Hash`, by the number it encodes. -/
abbrev Hash := Nat

/-- The type `ethgo.Receipt`, reduced to the field the sources read. -/
structure Receipt where
  TransactionHash : Hash
  deriving DecidableEq, Repr

/-- The node behind `client.GetTransactionReceipt`: its answer `(receipt, err)` to the lookup
of `hash` number `n` (counted from 0) made by the caller. -/
abbrev ReceiptSource := Hash → Nat → Option Receipt × Option GoError

/-- What a run of `waitForReceipt` returns, with the effects it had: the number of lookups it
made, the number of `time.Sleep` calls and the total time slept in milliseconds. -/
structure PollOutcome where
  receipt : Option Receipt
  err : Option GoError
  lookups : Nat
  sleeps : Nat
  sleptMs : Nat
  deriving DecidableEq, Repr

/-- The test `err != nil && err.Error() != "not found"`. -/
def isOtherError (err : Option GoError) : Bool :=
  match err with
  | some e => e.Error != "not found"
  | none => false

/-- The `for` loop of `waitForReceipt`, entered with the local `count` (a `uint64`) and the
effects so far. -/
def waitForReceiptLoop (client : ReceiptSource) (hash : Hash)
    (count lookups sleeps sleptMs : Nat) : PollOutcome :=
  let answer := client hash lookups
  if isOtherError answer.2 then
    { receipt := none, err := answer.2, lookups := lookups + 1, sleeps := sleeps,
      sleptMs := sleptMs }
  else
    match answer.1 with
    | some receipt =>
      { receipt := some receipt, err := none, lookups := lookups + 1, sleeps := sleeps,
        sleptMs := sleptMs }
    | none =>
      if count > 100 then
        { receipt := none, err := some (GoError.errorf "timeout" []), lookups := lookups + 1,
          sleeps := sleeps, sleptMs := sleptMs }
      else
        waitForReceiptLoop client hash ((count + 1) % 2 ^ 64) (lookups + 1) (sleeps + 1)
          (sleptMs + 50)
termination_by 101 - count
decreasing_by omega

/-- The function `waitForReceipt`. -/
def waitForReceipt (client : ReceiptSource) (hash : Hash) : PollOutcome :=
  waitForReceiptLoop client hash 0 0 0 0

/-- An answer that neither ends the polling with a receipt nor with an error: no receipt, and
either no error or the error "not found". -/
def notFoundYet (answer : Option Receipt × Option GoError) : Prop :=
  answer.1 = none ∧ (answer.2 = none ∨ ∃ e, answer.2 = some e ∧ e.Error = "not found")

/-- A source that never has the receipt: "not found" on even lookups, `(nil, nil)` on odd. -/
def neverFound : ReceiptSource :=
  fun _ n => if n % 2 = 0 then (none, some (GoError.errorsNew "not found")) else (none, none)

/-- A source that fails with "connection refused" on the third lookup. -/
def failsOnThird : ReceiptSource :=
  fun _ n => if n = 2 then (none, some (GoError.errorsNew "connection refused"))
    else (none, some (GoError.errorsNew "not found"))

/-- A source that has the receipt from the third lookup on. -/
def foundOnThird : ReceiptSource :=
  fun hash n => if n < 2 then (none, some (GoError.errorsNew "not found"))
    else (some { TransactionHash := hash }, none)

end PolygonEdge

/-! ## Start-up and shutdown of the relayer (`command/aarelayer/aa_relayer.go`) -/

namespace PolygonEdge

/-- The function `errors.Is(err, target)` for a package-level error variable `target`: `err`
is that variable, or wraps (through `%w`) an error that is. An error built by another call is
a different value even when its text is the text of `target`. -/
def GoError.Is : GoError → Sentinel → Bool
  | GoError.sentinel s, target => s == target
  | GoError.wrapf _ cause, target => cause.Is target
  | GoError.errorsNew _, _ => false
  | GoError.errorf _ _, _ => false

/-- The function `errors.Is` on a possibly nil error. -/
def errorsIs (err : Option GoError) (target : Sentinel) : Bool :=
  match err with
  | some e => e.Is target
  | none => false

/-- The variable `http.ErrServerClosed`. -/
def ErrServerClosed : Sentinel := Sentinel.httpErrServerClosed

/-- The variable `context.Canceled`. -/
def contextCanceled : Sentinel := Sentinel.contextCanceled

/-- Modelled from the spec: a record of the durable store, as returned by `GetAllPending`
(identity, the signed transaction, lifecycle status). -/
structure AAStateTransaction where
  ID : String
  Tx : AATransaction
  Status : String
  deriving DecidableEq, Repr

/-- The three functions handed to `g.Go` by `runCommand`. -/
inductive Activity where
  | signalListener
  | restServer
  | relayerService
  deriving DecidableEq, Repr

/-- The calls `runCommand` makes, in the order in which it makes them. -/
inductive Call where
  | NewAATxState (dbPath : String)
  | GetAllPending
  | DefaultConfig
  | GetJSONRPCAddress
  | NewAATxSender (jsonRPC : String)
  | GetSecretsManager
  | NewAccountFromSecret
  | getLogger
  | NewAAPool
  | Init (pending : List AAStateTransaction)
  | NewAAVerification
  | NewAARelayerRestServer
  | NewAARelayerService
  | WithCancel
  | GetTerminationSignalCh
  | Go (task : Activity)
  | Wait
  deriving DecidableEq, Repr

/-- The outcomes of the calls of `runCommand` into code outside the files at hand: the error
(possibly nil) of each fallible call, the list and error of `GetAllPending`, the JSON-RPC
address read from the command, and what `g.Wait()` returns once the three activities have
finished. -/
structure Startup where
  dbPath : String
  NewAATxState : Option GoError
  GetAllPending : List AAStateTransaction × Option GoError
  GetJSONRPCAddress : String
  NewAATxSender : String → Option GoError
  GetSecretsManager : Option GoError
  NewAccountFromSecret : Option GoError
  getLogger : Option GoError
  NewAARelayerService : Option GoError
  Wait : Option GoError

/-- The function `runCommand` of the `aarelayer` command: the calls it makes, in order, and
the error it returns. -/
def runCommand (env : Startup) : List Call × Option GoError :=
  let log := [Call.NewAATxState env.dbPath]
  match env.NewAATxState with
  | some err => (log, some err)
  | none =>
    let log := log ++ [Call.GetAllPending]
    let pending := env.GetAllPending.1
    match env.GetAllPending.2 with
    | some err => (log, some err)
    | none =>
      let log := log ++ [Call.DefaultConfig, Call.GetJSONRPCAddress]
      let jsonRPC :=
        if ¬ "http://".isPrefixOf env.GetJSONRPCAddress then "http://" ++ env.GetJSONRPCAddress
        else env.GetJSONRPCAddress
      let log := log ++ [Call.NewAATxSender jsonRPC]
      match env.NewAATxSender jsonRPC with
      | some err => (log, some err)
      | none =>
        let log := log ++ [Call.GetSecretsManager]
        match env.GetSecretsManager with
        | some err => (log, some err)
        | none =>
          let log := log ++ [Call.NewAccountFromSecret]
          match env.NewAccountFromSecret with
          | some err => (log, some err)
          | none =>
            let log := log ++ [Call.getLogger]
            match env.getLogger with
            | some err => (log, some err)
            | none =>
              let log := log ++ [Call.NewAAPool, Call.Init pending, Call.NewAAVerification,
                Call.NewAARelayerRestServer, Call.NewAARelayerService]
              match env.NewAARelayerService with
              | some err => (log, some err)
              | none =>
                (log ++ [Call.WithCancel, Call.GetTerminationSignalCh,
                  Call.Go Activity.signalListener, Call.Go Activity.restServer,
                  Call.Go Activity.relayerService, Call.Wait], env.Wait)

/-- What a function handed to `g.Go` does: the calls it makes, in order. -/
inductive TaskCall where
  | Printf (format : String)
  | PrintErrf (format : String)
  | ListenAndServe (addr : String)
  | Start
  | Shutdown
  | cancel
  deriving DecidableEq, Repr

/-- The first function handed to `g.Go`: it waits for a termination signal (`true`) or for the
context to be done (`false`), whichever comes first. -/
def signalListenerTask (signalFirst : Bool) : List TaskCall × Option GoError :=
  if signalFirst then ([TaskCall.cancel], none) else ([], none)

/-- The second function handed to `g.Go`, the REST server, given what
`restService.ListenAndServe` returns. -/
def restServerTask (addr : String) (listenAndServe : Option GoError) :
    List TaskCall × Option GoError :=
  let log := [TaskCall.Printf "Rest server is listening on %s...\n",
    TaskCall.ListenAndServe addr]
  if ¬ errorsIs listenAndServe ErrServerClosed then
    (log ++ [TaskCall.PrintErrf "Rest server has been terminated with an error = %v\n"],
      listenAndServe)
  else
    (log ++ [TaskCall.Printf "Rest server has been terminated\n", TaskCall.cancel], none)

/-- The third function handed to `g.Go`, the relayer service, given what
`restService.Shutdown` returns after `relayerService.Start` has returned. -/
def relayerServiceTask (shutdown : Option GoError) : List TaskCall × Option GoError :=
  let log := [TaskCall.Start, TaskCall.Printf "AA relayer service has been terminated\n",
    TaskCall.Shutdown]
  if shutdown ≠ none ∧ ¬ errorsIs shutdown contextCanceled then (log, shutdown)
  else (log ++ [TaskCall.cancel], none)

/-- The error of `ListenAndServe` when the port is taken. -/
def addressInUse : GoError :=
  GoError.errorsNew "listen tcp 127.0.0.1:8198: bind: address already in use"

end PolygonEdge

/-! ## The rootchain `emit` command (`command/rootchain/emit/emit.go`) -/

namespace PolygonEdge.Emit

/-- The struct `emitParams`: the flags of the command. -/
structure emitParams where
  address : String
  wallets : List String
  amounts : List String
  deriving DecidableEq, Repr

/-- The struct `result`: the command result. -/
structure result where
  Address : String
  Wallets : List String
  Amounts : List String
  deriving DecidableEq, Repr

/-- ABI-encoded bytes, identified by the encoder call that produced them: the encoding of the
values of a tuple type, or the encoding of a call of a method with a receiver and data. -/
inductive Encoded where
  | tuple (paramsType : String) (values : List String)
  | call (method : String) (receiver : String) (data : Encoded)
  deriving DecidableEq, Repr

/-- The type `ethgo.Transaction`, reduced to the fields `createTxInput` sets. -/
structure Transaction where
  To : String
  Input : Encoded
  deriving DecidableEq, Repr

/-- An event of a run of the task group: the goroutine of task `i` reaches its `select`, the
goroutine of task `i` returns, or the command context becomes done with an error. -/
inductive Step where
  | start (i : Nat)
  | finish (i : Nat)
  | cmdDone (err : GoError)
  deriving DecidableEq, Repr

/-- What `runCommand` takes from outside the file: the flags, the constants
`contracts.NativeTokenContract.String()` and `helper.StateSenderAddress`, the two ABI
encoders, the error of `txrelayer.NewTxRelayer`, the error of `relayer.SendTxn` in the task
of wallet number `i`, and the order in which the scheduler runs the goroutines. -/
structure Env where
  params : emitParams
  NativeTokenContract : String
  StateSenderAddress : String
  TypeEncode : String → List String → Except GoError Encoded
  MethodEncode : String → Encoded → Except GoError Encoded
  NewTxRelayer : Option GoError
  SendTxn : Nat → Transaction → Option GoError
  schedule : List Step

/-- The map `contractsToParamTypes`. -/
def contractsToParamTypes (env : Env) : List (String × String) :=
  [(env.NativeTokenContract, "tuple(address,uint256)")]

/-- The function `createTxInput`. -/
def createTxInput (env : Env) (paramsType : String) (parameters : List String) :
    Except GoError Transaction :=
  match env.TypeEncode paramsType parameters with
  | Except.error err =>
    Except.error (GoError.wrapf "failed to encode parsed parameters: %w" err)
  | Except.ok wrapperInput =>
    match env.MethodEncode env.params.address wrapperInput with
    | Except.error err =>
      Except.error (GoError.wrapf "failed to encode provided parameters: %w" err)
    | Except.ok input => Except.ok { To := env.StateSenderAddress, Input := input }

/-- The function handed to `g.Go` for wallet number `i`, given the error of `ctx` when `ctx` is
done at the time of the `select` (`none` when it is not done). -/
def emitTask (env : Env) (paramsType : String) (i : Nat) (wallet amount : String)
    (ctxErr : Option GoError) : Option GoError :=
  match ctxErr with
  | some err => some err
  | none =>
    match createTxInput env paramsType [wallet, amount] with
    | Except.error err => some (GoError.wrapf "failed to create tx input: %w" err)
    | Except.ok txn =>
      match env.SendTxn i txn with
      | some _ => none
      | none => none

/-- The loop `for i := range params.wallets`, from index `i` on: the wallet and amount of
each task handed to `g.Go`; `none` is the run-time panic of `params.amounts[i]` out of
range. -/
def spawnTasks (env : Env) : Nat → List String → Option (List (String × String))
  | _, [] => some []
  | i, wallet :: rest =>
    match env.params.amounts[i]? with
    | none => none
    | some amount =>
      match spawnTasks env (i + 1) rest with
      | none => none
      | some tasks => some ((wallet, amount) :: tasks)

/-- The state of the `errgroup` created by `errgroup.WithContext` and of its goroutines: the
first non-nil error returned by a task (what `Wait` returns), the error of `ctx` once `ctx`
is done, the tasks that have reached their `select`, and the tasks past their `select` that
have not returned yet, each with the value it returns. -/
structure Group where
  err : Option GoError
  ctxErr : Option GoError
  started : List Nat
  running : List (Nat × Option GoError)
  deriving DecidableEq, Repr

/-- A task returns `taskResult`: the first non-nil error is kept and cancels `ctx`. -/
def Group.record (g : Group) (taskResult : Option GoError) : Group :=
  match g.err, taskResult with
  | none, some err =>
    { g with
      err := some err,
      ctxErr := match g.ctxErr with
        | some c => some c
        | none => some (GoError.sentinel contextCanceled) }
  | _, _ => g

/-- One event of the run. A task that reaches its `select` takes the branch that the state
of `ctx` at that moment selects; an event that cannot happen (a task that does not exist,
has started already, or is not running) changes nothing. -/
def Group.step (env : Env) (paramsType : String) (tasks : List (String × String))
    (g : Group) : Step → Group
  | Step.start i =>
    match tasks[i]? with
    | none => g
    | some (wallet, amount) =>
      if i ∈ g.started then g
      else
        { g with
          started := i :: g.started,
          running := (i, emitTask env paramsType i wallet amount g.ctxErr) :: g.running }
  | Step.finish i =>
    match g.running.lookup i with
    | none => g
    | some taskResult =>
      { g.record taskResult with running := g.running.filter (fun t => t.1 ≠ i) }
  | Step.cmdDone err =>
    match g.ctxErr with
    | some _ => g
    | none => { g with ctxErr := some err }

/-- The method `g.Wait()`: the goroutines run in the order of `env.schedule`, the tasks that
the schedule leaves unfinished then run to their end in the order of their index, and the
first non-nil error is returned. -/
def Group.Wait (env : Env) (paramsType : String) (tasks : List (String × String)) :
    Option GoError :=
  let g : Group := { err := none, ctxErr := none, started := [], running := [] }
  let g := env.schedule.foldl (Group.step env paramsType tasks) g
  let g := (List.range tasks.length).foldl
    (fun g i =>
      Group.step env paramsType tasks (Group.step env paramsType tasks g (Step.start i))
        (Step.finish i)) g
  g.err

/-- The outputter of the command: the error set, the command result set, and whether
`WriteOutput` has run. -/
structure Outputter where
  err : Option GoError
  commandResult : Option result
  written : Bool
  deriving DecidableEq, Repr

/-- The function `runCommand` of the `emit` command: the state of the outputter when the
function returns (`WriteOutput` is deferred), or `none` for a run-time panic. -/
def runCommand (env : Env) : Option Outputter :=
  match (contractsToParamTypes env).lookup env.params.address with
  | none =>
    some { err := some (GoError.errorf "no parameter types for given contract address: %v"
             [.text env.params.address]),
           commandResult := none, written := true }
  | some paramsType =>
    match env.NewTxRelayer with
    | some err => some { err := some err, commandResult := none, written := true }
    | none =>
      match spawnTasks env 0 env.params.wallets with
      | none => none
      | some tasks =>
        match Group.Wait env paramsType tasks with
        | some err =>
          some { err := some (GoError.wrapf "sending transactions to rootchain failed: %w" err),
                 commandResult := none, written := true }
        | none =>
          some { err := none,
                 commandResult := some { Address := env.params.address,
                                         Wallets := env.params.wallets,
                                         Amounts := env.params.amounts },
                 written := true }

/-! ### Sample data for evaluating `runCommand` -/

/-- The character is a hexadecimal digit. -/
def isHexDigit (c : Char) : Bool :=
  c.isDigit || (97 ≤ c.toNat && c.toNat ≤ 102) || (65 ≤ c.toNat && c.toNat ≤ 70)

/-- The text is `0x` followed by 40 hexadecimal digits: a 20-byte address. -/
def isAddressText (text : String) : Bool :=
  match text.data with
  | '0' :: 'x' :: digits => digits.length == 40 && digits.all isHexDigit
  | _ => false

/-- The text is a non-empty sequence of decimal digits. -/
def isDecimalText (text : String) : Bool :=
  text.data ≠ [] && text.data.all Char.isDigit

/-- An encoder for `tuple(address,uint256)` used to evaluate `runCommand` on examples: it
encodes a 20-byte hexadecimal address with a decimal amount and fails on other values. -/
def sampleTypeEncode (paramsType : String) (values : List String) : Except GoError Encoded :=
  match values with
  | [wallet, amount] =>
    if isAddressText wallet && isDecimalText amount then
      Except.ok (Encoded.tuple paramsType values)
    else Except.error (GoError.errorsNew "abi: cannot encode the parameters")
  | _ => Except.error (GoError.errorsNew "abi: cannot encode the parameters")

/-- An encoder for `syncState(address receiver, bytes data)` used to evaluate `runCommand` on
examples; it always succeeds. -/
def sampleMethodEncode (receiver : String) (data : Encoded) : Except GoError Encoded :=
  Except.ok (Encoded.call "function syncState(address receiver, bytes data)" receiver data)

/-- The wallet address of the sample run. -/
def sampleWallet : String := "0x85da99c8a7c2c95964c8efd687e95e632fc533d6"

/-- The transaction that `createTxInput` builds for `sampleWallet` and the amount `100`. -/
def sampleTxn : Transaction :=
  { To := "0x0000000000000000000000000000000000001001",
    Input := Encoded.call "function syncState(address receiver, bytes data)"
      "0x0000000000000000000000000000000000001010"
      (Encoded.tuple "tuple(address,uint256)" [sampleWallet, "100"]) }

/-- A run of `emit` for one wallet with a 20-byte address, in which the transaction is built
and `SendTxn` fails with "nonce too low". -/
def sendFails : Env :=
  { params := { address := "0x0000000000000000000000000000000000001010",
                wallets := [sampleWallet], amounts := ["100"] },
    NativeTokenContract := "0x0000000000000000000000000000000000001010",
    StateSenderAddress := "0x0000000000000000000000000000000000001001",
    TypeEncode := sampleTypeEncode,
    MethodEncode := sampleMethodEncode,
    NewTxRelayer := none,
    SendTxn := fun _ _ => some (GoError.errorsNew "nonce too low"),
    schedule := [Step.start 0, Step.finish 0] }

end PolygonEdge.Emit

/-! # Properties -/

namespace PolygonEdge

/-! ## Admission verification -/

/-- The payload loop finishes without an error exactly when every payload has a gas limit, a
value and, unless contract creation is allowed, a destination. -/
theorem validatePayloads_eq_none_iff (config : AAConfig) (sender : Address)
    (payloads : List Payload) :
    validatePayloads config sender payloads = none ↔
      ∀ payload ∈ payloads, payload.GasLimit ≠ none ∧ payload.Value ≠ none ∧
        (payload.To ≠ none ∨ config.AllowContractCreation = true) := by
  induction payloads with
  | nil => simp [validatePayloads]
  | cons payload rest ih =>
    unfold validatePayloads
    by_cases hg : payload.GasLimit = none
    · simp [hg]
    · by_cases hv : payload.Value = none
      · simp [hg, hv]
      · by_cases ht : payload.To = none ∧ ¬ config.AllowContractCreation = true
        · have h1 := ht.1
          have h2 := ht.2
          simp [hg, hv, h1, h2]
        · rw [if_neg hg, if_neg hv, if_neg ht, ih]
          have ht2 : payload.To ≠ none ∨ config.AllowContractCreation = true := by
            by_cases h : payload.To = none
            · right
              by_contra hc
              exact ht ⟨h, hc⟩
            · left; exact h
          simp [hg, hv, ht2]

/-- The result of `Validate` on a non-nil transaction, as a chain of the outcomes of its
branches. -/
theorem Validate_some (ext : Externals) (p : aaVerification) (tx : AATransaction) :
    Validate ext p (some tx) = none ↔
      tx.Transaction.Payload ≠ [] ∧ ext.IsValid tx.Signature = true ∧
      validatePayloads p.config tx.Transaction.From tx.Transaction.Payload = none ∧
      ext.IsAddressAllowed p.config tx.Transaction.From = true ∧
      ext.GetAddressFromSignature tx p.invokerAddress p.chainID = tx.Transaction.From ∧
      (∀ f, p.validationFn = some f → f tx = none) := by
  unfold Validate
  by_cases h1 : tx.Transaction.Payload = []
  · simp [h1]
  · have h1l : ¬ tx.Transaction.Payload.length = 0 := by
      simpa [List.length_eq_zero] using h1
    by_cases h2 : ext.IsValid tx.Signature = true
    · cases h3 : validatePayloads p.config tx.Transaction.From tx.Transaction.Payload with
      | some err => simp [h1, h1l, h2, h3]
      | none =>
        by_cases h4 : ext.IsAddressAllowed p.config tx.Transaction.From = true
        · by_cases h5 : ext.GetAddressFromSignature tx p.invokerAddress p.chainID
              = tx.Transaction.From
          · have h5s : tx.Transaction.From
                = ext.GetAddressFromSignature tx p.invokerAddress p.chainID := h5.symm
            cases h6 : p.validationFn with
            | none => simp [h1, h1l, h2, h3, h4, h5, h6, ← h5s]
            | some f => simp [h1, h1l, h2, h3, h4, h5, h6, ← h5s]
          · have h5s : ¬ tx.Transaction.From
                = ext.GetAddressFromSignature tx p.invokerAddress p.chainID :=
              fun h => h5 h.symm
            simp [h1, h1l, h2, h3, h4, h5, h5s]
        · simp [h1, h1l, h2, h3, h4]
    · simp [h1, h1l, h2]

/-- C1: for every verifier (any configuration, any allow-list behaviour, any contract-creation
flag, any custom predicate) and every transaction, if the address recovered from the
signature with the configured invoker address and chain ID differs from `From`, `Validate`
returns a non-nil error. -/
theorem Validate_rejects_signer_mismatch (ext : Externals) (p : aaVerification)
    (tx : AATransaction)
    (h : ext.GetAddressFromSignature tx p.invokerAddress p.chainID ≠ tx.Transaction.From) :
    ∃ err, Validate ext p (some tx) = some err := by
  cases hv : Validate ext p (some tx) with
  | some err => exact ⟨err, rfl⟩
  | none =>
    have := (Validate_some ext p tx).mp hv
    exact absurd this.2.2.2.2.1 h

/-- Witness of C1: a transaction signed for another chain (so that the recovered signer is not
`From`) is rejected although the allow-list admits every sender. -/
theorem Validate_rejects_signer_mismatch_witness :
    ∃ err, Validate sampleExternals (NewAAVerification sampleConfig ⟨0x1111⟩ 101 none)
      (some goodTx) = some err :=
  Validate_rejects_signer_mismatch sampleExternals
    (NewAAVerification sampleConfig ⟨0x1111⟩ 101 none) goodTx (by decide)

/-- C2: a transaction with a payload without gas limit or without value is rejected whatever
the configuration; one with a payload without destination is rejected when contract creation
is not allowed; and when contract creation is allowed, a transaction that passes every other
check is accepted whatever the destinations of its payloads. -/
theorem Validate_payload_fields (ext : Externals) (p : aaVerification) (tx : AATransaction) :
    ((∃ payload ∈ tx.Transaction.Payload, payload.GasLimit = none ∨ payload.Value = none) →
        ∃ err, Validate ext p (some tx) = some err) ∧
    ((∃ payload ∈ tx.Transaction.Payload, payload.To = none) →
        p.config.AllowContractCreation = false →
        ∃ err, Validate ext p (some tx) = some err) ∧
    (p.config.AllowContractCreation = true →
        tx.Transaction.Payload ≠ [] →
        ext.IsValid tx.Signature = true →
        (∀ payload ∈ tx.Transaction.Payload,
          payload.GasLimit ≠ none ∧ payload.Value ≠ none) →
        ext.IsAddressAllowed p.config tx.Transaction.From = true →
        ext.GetAddressFromSignature tx p.invokerAddress p.chainID = tx.Transaction.From →
        (∀ f, p.validationFn = some f → f tx = none) →
        Validate ext p (some tx) = none) := by
  refine ⟨?_, ?_, ?_⟩
  · rintro ⟨payload, hmem, hnil⟩
    cases hv : Validate ext p (some tx) with
    | some err => exact ⟨err, rfl⟩
    | none =>
      have h := ((validatePayloads_eq_none_iff _ _ _).mp
        ((Validate_some ext p tx).mp hv).2.2.1) payload hmem
      rcases hnil with hg | hv2
      · exact absurd hg h.1
      · exact absurd hv2 h.2.1
  · rintro ⟨payload, hmem, hnil⟩ hflag
    cases hv : Validate ext p (some tx) with
    | some err => exact ⟨err, rfl⟩
    | none =>
      have h := ((validatePayloads_eq_none_iff _ _ _).mp
        ((Validate_some ext p tx).mp hv).2.2.1) payload hmem
      rcases h.2.2 with hto | hallow
      · exact absurd hnil hto
      · rw [hflag] at hallow
        exact absurd hallow (by decide)
  · intro hallow hne hsig hfields hallowed hsigner hcustom
    refine (Validate_some ext p tx).mpr ⟨hne, hsig, ?_, hallowed, hsigner, hcustom⟩
    refine (validatePayloads_eq_none_iff _ _ _).mpr ?_
    intro payload hmem
    exact ⟨(hfields payload hmem).1, (hfields payload hmem).2, Or.inr hallow⟩

/-- Witness of C2: a payload without value is rejected under `sampleVerifier`. -/
theorem Validate_payload_fields_witness :
    ∃ err, Validate sampleExternals sampleVerifier
      (some { goodTx with
        Transaction := { goodTx.Transaction with
          Payload := [{ goodPayload with Value := none }] } }) = some err :=
  (Validate_payload_fields sampleExternals sampleVerifier
    { goodTx with
        Transaction := { goodTx.Transaction with
          Payload := [{ goodPayload with Value := none }] } }).1
    ⟨{ goodPayload with Value := none }, by simp, Or.inr rfl⟩

/-- C4: `Validate` returns nil if and only if the transaction is not nil, its payload list is
non-empty, its signature is well-formed, every payload has a gas limit and a value and (unless
contract creation is allowed) a destination, the sender is allowed, the recovered signer equals
`From`, and the custom predicate is nil or returns nil. In particular a nil transaction, an
empty payload list and a sender that is not allowed are always rejected. -/
theorem Validate_eq_none_iff (ext : Externals) (p : aaVerification)
    (tx : Option AATransaction) :
    (Validate ext p tx = none ↔
      ∃ t, tx = some t ∧
        t.Transaction.Payload ≠ [] ∧
        ext.IsValid t.Signature = true ∧
        (∀ payload ∈ t.Transaction.Payload,
          payload.GasLimit ≠ none ∧ payload.Value ≠ none ∧
            (payload.To ≠ none ∨ p.config.AllowContractCreation = true)) ∧
        ext.IsAddressAllowed p.config t.Transaction.From = true ∧
        ext.GetAddressFromSignature t p.invokerAddress p.chainID = t.Transaction.From ∧
        (p.validationFn = none ∨ ∃ f, p.validationFn = some f ∧ f t = none)) ∧
    Validate ext p none ≠ none ∧
    (∀ t, t.Transaction.Payload = [] → Validate ext p (some t) ≠ none) ∧
    (∀ t, ext.IsAddressAllowed p.config t.Transaction.From = false →
      Validate ext p (some t) ≠ none) := by
  have custom_iff : ∀ t : AATransaction,
      (∀ f, p.validationFn = some f → f t = none) ↔
        (p.validationFn = none ∨ ∃ f, p.validationFn = some f ∧ f t = none) := by
    intro t
    cases p.validationFn with
    | none => simp
    | some g => simp
  refine ⟨?_, ?_, ?_, ?_⟩
  · cases tx with
    | none => simp [Validate]
    | some t =>
      rw [Validate_some, validatePayloads_eq_none_iff, custom_iff]
      constructor
      · intro h
        exact ⟨t, rfl, h⟩
      · rintro ⟨t2, ht, h⟩
        cases ht
        exact h
  · simp [Validate]
  · intro t hempty hv
    exact ((Validate_some ext p t).mp hv).1 hempty
  · intro t hnot hv
    have := ((Validate_some ext p t).mp hv).2.2.2.1
    rw [hnot] at this
    exact absurd this (by decide)

/-- Witness of C4: `goodTx` meets every condition and is accepted by `sampleVerifier`. -/
theorem Validate_eq_none_iff_witness :
    Validate sampleExternals sampleVerifier (some goodTx) = none :=
  (Validate_eq_none_iff sampleExternals sampleVerifier (some goodTx)).1.mpr
    ⟨goodTx, rfl, by decide, by decide, by decide, by decide, by decide, Or.inl rfl⟩

/-- The built-in checks pass exactly when `Validate` without a custom predicate accepts. -/
theorem passesBuiltin_iff (ext : Externals) (config : AAConfig) (invokerAddress : Address)
    (chainID : Int) (tx : AATransaction) :
    passesBuiltin ext config invokerAddress chainID tx ↔
      Validate ext (NewAAVerification config invokerAddress chainID none) (some tx) = none := by
  rw [Validate_some, validatePayloads_eq_none_iff]
  simp [passesBuiltin, NewAAVerification]

/-- C5: the custom predicate is invoked last and its outcome is surfaced verbatim. For a
transaction that passes all built-in checks and every configured predicate `f`, `Validate`
returns exactly `f tx`; for a transaction that fails a built-in check (a nil transaction
included), the result of `Validate` is the same for every choice of the predicate. -/
theorem Validate_custom_predicate (ext : Externals) (config : AAConfig)
    (invokerAddress : Address) (chainID : Int) :
    (∀ (tx : AATransaction) (f : ValidationFunc),
      passesBuiltin ext config invokerAddress chainID tx →
      Validate ext (NewAAVerification config invokerAddress chainID (some f)) (some tx)
        = f tx) ∧
    (∀ (tx : Option AATransaction) (f g : Option ValidationFunc),
      (∀ t, tx = some t → ¬ passesBuiltin ext config invokerAddress chainID t) →
      Validate ext (NewAAVerification config invokerAddress chainID f) tx
        = Validate ext (NewAAVerification config invokerAddress chainID g) tx) := by
  have key : ∀ (t : AATransaction) (f : Option ValidationFunc),
      Validate ext (NewAAVerification config invokerAddress chainID f) (some t) =
        match Validate ext (NewAAVerification config invokerAddress chainID none) (some t) with
        | some err => some err
        | none => match f with
          | some fn => fn t
          | none => none := by
    intro t f
    simp only [Validate, NewAAVerification]
    by_cases h1 : t.Transaction.Payload.length = 0
    · simp [h1]
    · by_cases h2 : ext.IsValid t.Signature = true
      · cases h3 : validatePayloads config t.Transaction.From t.Transaction.Payload with
        | some err => simp [h1, h2]
        | none =>
          by_cases h4 : ext.IsAddressAllowed config t.Transaction.From = true
          · by_cases h5 : t.Transaction.From
                = ext.GetAddressFromSignature t invokerAddress chainID
            · simp [h1, h2, h4, ← h5]
            · simp [h1, h2, h4, h5]
          · simp [h1, h2, h4]
      · simp [h1, h2]
  constructor
  · intro tx f hpass
    rw [key, (passesBuiltin_iff ext config invokerAddress chainID tx).mp hpass]
  · intro tx f g hfail
    cases tx with
    | none => rfl
    | some t =>
      have hne : Validate ext (NewAAVerification config invokerAddress chainID none) (some t)
          ≠ none :=
        fun h => hfail t rfl ((passesBuiltin_iff ext config invokerAddress chainID t).mpr h)
      rw [key t f, key t g]
      cases hv : Validate ext (NewAAVerification config invokerAddress chainID none) (some t) with
      | some err => rfl
      | none => exact absurd hv hne

/-- Witness of C5: `goodTx` passes the built-in checks, so a predicate that rejects everything
decides the outcome. -/
theorem Validate_custom_predicate_witness :
    Validate sampleExternals
      (NewAAVerification sampleConfig ⟨0x1111⟩ 100
        (some (fun _ => some (GoError.errorsNew "policy")))) (some goodTx)
      = some (GoError.errorsNew "policy") :=
  (Validate_custom_predicate sampleExternals sampleConfig ⟨0x1111⟩ 100).1 goodTx
    (fun _ => some (GoError.errorsNew "policy"))
    ⟨by decide, by decide, by decide, by decide, by decide⟩

/-- The payload loop of `Validate` computes the payload-field check. -/
theorem validatePayloads_eq_checkPayloadFields (config : AAConfig) (tx : AATransaction) :
    validatePayloads config tx.Transaction.From tx.Transaction.Payload
      = checkPayloadFields config tx := by
  unfold checkPayloadFields
  generalize tx.Transaction.Payload = payloads
  induction payloads with
  | nil => simp [validatePayloads]
  | cons payload rest ih =>
    unfold validatePayloads
    rw [List.find?_cons]
    cases hg : payload.GasLimit with
    | none => simp [payloadViolates, hg]
    | some gas =>
      cases hv : payload.Value with
      | none => simp [payloadViolates, hg, hv]
      | some value =>
        cases ht : payload.To with
        | none =>
          cases hc : config.AllowContractCreation with
          | false => simp [payloadViolates, hg, hv, ht, hc]
          | true => simpa [payloadViolates, hg, hv, ht, hc] using ih
        | some dest => simpa [payloadViolates, hg, hv, ht] using ih

/-- C3 (amended): `Validate` applies its checks in the order (1) tx not nil, (2) payload
non-empty, (3) signature well-formed, (4) every payload has `GasLimit`, `Value` and (unless
contract creation is allowed) `To`, (5) `From` allow-listed, (6) recovered signer equals
`From`, (7) custom predicate, and returns the error of the first check in this order that the
transaction violates; in particular a transaction with a non-empty payload list and a
signature that is not well-formed gets the "invalid signature" error, whatever its payloads
lack. -/
theorem Validate_eq_validateInOrder_codeOrder (ext : Externals) (p : aaVerification)
    (tx : Option AATransaction) :
    Validate ext p tx = validateInOrder (checksInCodeOrder ext p) tx ∧
    (∀ t, tx = some t → t.Transaction.Payload ≠ [] → ext.IsValid t.Signature = false →
      Validate ext p tx = some (GoError.errorsNew "invalid signature")) := by
  refine ⟨?_, ?_⟩
  case refine_2 =>
    intro t ht hne hsig
    subst ht
    have hlen : ¬ t.Transaction.Payload.length = 0 := by
      simpa [List.length_eq_zero] using hne
    simp [Validate, hlen, hsig]
  cases tx with
  | none => rfl
  | some t =>
    simp only [Validate, validateInOrder, checksInCodeOrder, List.findSome?_cons,
      List.findSome?_nil, checkPayloadNonEmpty, checkSignature, checkAllowed, checkSigner,
      checkCustom, ← validatePayloads_eq_checkPayloadFields, List.length_eq_zero]
    by_cases h1 : t.Transaction.Payload = []
    · simp [h1]
    · by_cases h2 : ext.IsValid t.Signature = true
      · cases h3 : validatePayloads p.config t.Transaction.From t.Transaction.Payload with
        | some err => simp [h1, h2]
        | none =>
          by_cases h4 : ext.IsAddressAllowed p.config t.Transaction.From = true
          · by_cases h5 : ext.GetAddressFromSignature t p.invokerAddress p.chainID
                = t.Transaction.From
            · have h5s : t.Transaction.From
                  = ext.GetAddressFromSignature t p.invokerAddress p.chainID := h5.symm
              cases h6 : p.validationFn with
              | none => simp [h1, h2, h4, h5, ← h5s]
              | some f =>
                cases h7 : f t with
                | none => simp [h1, h2, h4, h5, ← h5s, h7]
                | some e => simp [h1, h2, h4, h5, ← h5s, h7]
            · have h5s : ¬ t.Transaction.From
                  = ext.GetAddressFromSignature t p.invokerAddress p.chainID :=
                fun h => h5 h.symm
              simp [h1, h2, h4, h5, h5s]
          · simp [h1, h2, h4]
      · simp [h1, h2]

/-- Witness of C3 (amended): `noGasBadSigTx`, whose payload has no gas limit and whose
signature is not well-formed, gets the "invalid signature" error. -/
theorem Validate_eq_validateInOrder_codeOrder_witness :
    Validate sampleExternals sampleVerifier (some noGasBadSigTx)
      = some (GoError.errorsNew "invalid signature") :=
  (Validate_eq_validateInOrder_codeOrder sampleExternals sampleVerifier
    (some noGasBadSigTx)).2 noGasBadSigTx rfl (by decide) (by decide)

/-- Counterexample to C3 as stated: `noGasBadSigTx` has a non-empty payload list with a
payload without gas limit and a signature that is not well-formed; `Validate` returns the
"invalid signature" error, not the payload error that the stated order of checks gives. -/
theorem Validate_signature_before_payload_fields :
    noGasBadSigTx.Transaction.Payload ≠ [] ∧
    (∃ payload ∈ noGasBadSigTx.Transaction.Payload, payload.GasLimit = none) ∧
    sampleExternals.IsValid noGasBadSigTx.Signature = false ∧
    Validate sampleExternals sampleVerifier (some noGasBadSigTx)
      = some (GoError.errorsNew "invalid signature") ∧
    validateInOrder (checksInSpecOrder sampleExternals sampleVerifier) (some noGasBadSigTx)
      = some (GoError.errorf "tx has invalid payload - gas limit not specified: %s"
          [.address ⟨0xBB⟩]) ∧
    Validate sampleExternals sampleVerifier (some noGasBadSigTx)
      ≠ validateInOrder (checksInSpecOrder sampleExternals sampleVerifier)
          (some noGasBadSigTx) := by
  refine ⟨by decide, by decide, by decide, by decide, by decide, by decide⟩

end PolygonEdge

/-! ## Receipt polling -/

namespace PolygonEdge

/-- The error test of the loop is negative exactly for a nil error and for "not found". -/
theorem isOtherError_eq_false_iff (err : Option GoError) :
    isOtherError err = false ↔ err = none ∨ ∃ e, err = some e ∧ e.Error = "not found" := by
  cases err with
  | none => simp [isOtherError]
  | some e => simp [isOtherError]

/-- One iteration on a "not found yet" answer below the ceiling: one sleep of 50ms, `count`
incremented, and the loop is entered again. -/
theorem waitForReceiptLoop_notFoundYet (client : ReceiptSource) (hash : Hash)
    (count lookups sleeps sleptMs : Nat) (hcount : count ≤ 100)
    (h : notFoundYet (client hash lookups)) :
    waitForReceiptLoop client hash count lookups sleeps sleptMs
      = waitForReceiptLoop client hash (count + 1) (lookups + 1) (sleeps + 1) (sleptMs + 50) := by
  have h2 : isOtherError (client hash lookups).2 = false :=
    (isOtherError_eq_false_iff _).mpr h.2
  have h1 : (client hash lookups).1 = none := h.1
  have hc : ¬ count > 100 := by omega
  have hmod : (count + 1) % 2 ^ 64 = count + 1 := Nat.mod_eq_of_lt (by omega)
  conv_lhs => rw [waitForReceiptLoop]
  simp only [h2, h1, hc, hmod]
  simp

/-- After `k` "not found yet" answers in a row, below the ceiling, the loop is at its
iteration number `k` with `k` sleeps made. -/
theorem waitForReceiptLoop_prefix (client : ReceiptSource) (hash : Hash) (k : Nat) :
    ∀ count lookups sleeps sleptMs : Nat, count + k ≤ 101 →
      (∀ j, j < k → notFoundYet (client hash (lookups + j))) →
      waitForReceiptLoop client hash count lookups sleeps sleptMs
        = waitForReceiptLoop client hash (count + k) (lookups + k) (sleeps + k)
            (sleptMs + 50 * k) := by
  induction k with
  | zero => intro count lookups sleeps sleptMs _ _; rfl
  | succ k ih =>
    intro count lookups sleeps sleptMs hle hall
    rw [waitForReceiptLoop_notFoundYet client hash count lookups sleeps sleptMs (by omega)
      (by simpa using hall 0 (by omega))]
    rw [ih (count + 1) (lookups + 1) (sleeps + 1) (sleptMs + 50) (by omega)
      (by
        intro j hj
        have := hall (j + 1) (by omega)
        rwa [show lookups + (j + 1) = lookups + 1 + j by omega] at this)]
    congr 1 <;> omega

/-- An answer with an error other than "not found" ends the loop with that error. -/
theorem waitForReceiptLoop_otherError (client : ReceiptSource) (hash : Hash)
    (count lookups sleeps sleptMs : Nat) (e : GoError)
    (herr : (client hash lookups).2 = some e) (hne : e.Error ≠ "not found") :
    waitForReceiptLoop client hash count lookups sleeps sleptMs
      = { receipt := none, err := some e, lookups := lookups + 1, sleeps := sleeps,
          sleptMs := sleptMs } := by
  have h2 : isOtherError (client hash lookups).2 = true := by
    simp [herr, isOtherError, hne]
  rw [waitForReceiptLoop]
  simp only [h2, if_true]
  rw [herr]

/-- An answer with a receipt and without an error other than "not found" ends the loop with
that receipt. -/
theorem waitForReceiptLoop_receipt (client : ReceiptSource) (hash : Hash)
    (count lookups sleeps sleptMs : Nat) (r : Receipt)
    (hrec : (client hash lookups).1 = some r)
    (herr : isOtherError (client hash lookups).2 = false) :
    waitForReceiptLoop client hash count lookups sleeps sleptMs
      = { receipt := some r, err := none, lookups := lookups + 1, sleeps := sleeps,
          sleptMs := sleptMs } := by
  rw [waitForReceiptLoop]
  simp only [herr, hrec]
  simp

/-- A "not found yet" answer above the ceiling ends the loop with "timeout". -/
theorem waitForReceiptLoop_timeout (client : ReceiptSource) (hash : Hash)
    (count lookups sleeps sleptMs : Nat) (hcount : count > 100)
    (h : notFoundYet (client hash lookups)) :
    waitForReceiptLoop client hash count lookups sleeps sleptMs
      = { receipt := none, err := some (GoError.errorf "timeout" []), lookups := lookups + 1,
          sleeps := sleeps, sleptMs := sleptMs } := by
  have h2 : isOtherError (client hash lookups).2 = false :=
    (isOtherError_eq_false_iff _).mpr h.2
  have h1 : (client hash lookups).1 = none := h.1
  rw [waitForReceiptLoop]
  simp only [h2, h1, hcount]
  simp

/-- The loop makes at least one lookup and, entered with `count ≤ 101`, at most
`102 - count` of them, with one sleep between two lookups. -/
theorem waitForReceiptLoop_bounds (client : ReceiptSource) (hash : Hash) (n : Nat) :
    ∀ count lookups sleeps sleptMs : Nat, n = 101 - count → count ≤ 101 →
      let out := waitForReceiptLoop client hash count lookups sleeps sleptMs
      lookups + 1 ≤ out.lookups ∧ out.lookups + count ≤ lookups + 102 ∧
        out.sleeps + lookups + 1 = out.lookups + sleeps ∧
        out.sleptMs + 50 * sleeps = sleptMs + 50 * out.sleeps := by
  induction n with
  | zero =>
    intro count lookups sleeps sleptMs hn hle
    have hc : count > 100 := by omega
    rw [waitForReceiptLoop]
    cases h2 : isOtherError (client hash lookups).2 <;>
      cases h1 : (client hash lookups).1 <;>
      simp [hc] <;> omega
  | succ n ih =>
    intro count lookups sleeps sleptMs hn hle
    have hc : ¬ count > 100 := by omega
    have hmod : (count + 1) % 2 ^ 64 = count + 1 := Nat.mod_eq_of_lt (by omega)
    have hrec := ih (count + 1) (lookups + 1) (sleeps + 1) (sleptMs + 50) (by omega) (by omega)
    rw [waitForReceiptLoop]
    cases h2 : isOtherError (client hash lookups).2 <;>
      cases h1 : (client hash lookups).1 <;>
      simp only [hc, hmod, if_true, if_false, Bool.false_eq_true] <;>
      first
        | omega
        | (simp only [] at hrec; omega)
        | (simp; omega)

/-- The error returned by the loop is never a "not found" error. -/
theorem waitForReceiptLoop_err_ne_notFound (client : ReceiptSource) (hash : Hash) (n : Nat) :
    ∀ count lookups sleeps sleptMs : Nat, n = 101 - count →
      ∀ e, (waitForReceiptLoop client hash count lookups sleeps sleptMs).err = some e →
        e.Error ≠ "not found" := by
  induction n with
  | zero =>
    intro count lookups sleeps sleptMs hn e
    have hc : count > 100 := by omega
    rw [waitForReceiptLoop]
    cases h2 : isOtherError (client hash lookups).2 with
    | true =>
      simp only [if_true]
      intro he
      have h3 := h2
      rw [he] at h3
      simpa [isOtherError] using h3
    | false =>
      cases h1 : (client hash lookups).1 with
      | some r => simp
      | none =>
        simp only [hc, if_true, Bool.false_eq_true, if_false]
        intro he
        cases he
        decide
  | succ n ih =>
    intro count lookups sleeps sleptMs hn e
    have hc : ¬ count > 100 := by omega
    rw [waitForReceiptLoop]
    cases h2 : isOtherError (client hash lookups).2 with
    | true =>
      simp only [if_true]
      intro he
      have h3 := h2
      rw [he] at h3
      simpa [isOtherError] using h3
    | false =>
      cases h1 : (client hash lookups).1 with
      | some r => simp
      | none =>
        simp only [hc, Bool.false_eq_true, if_false]
        have hmod : (count + 1) % 2 ^ 64 = count + 1 := Nat.mod_eq_of_lt (by omega)
        rw [hmod]
        exact ih (count + 1) (lookups + 1) (sleeps + 1) (sleptMs + 50) (by omega) e

/-- C6: in `waitForReceipt`, with the lookups before number `k` all answered "not found" (or
with no error and no receipt): such an answer to lookup `k` is not treated as a failure (the
error returned in the end is never a "not found" error) and costs one attempt: while
attempts are left (`count ≤ 100`) one sleep is made, `count` is incremented and a further
lookup follows, and on the last attempt (`count = 101`) the attempts are used up; an
answer with any other error makes `waitForReceipt` return that same error with no receipt and
no further lookup; and an answer with a receipt and without such an error makes it return
exactly that receipt with a nil error. -/
theorem waitForReceipt_answers (client : ReceiptSource) (hash : Hash) (k : Nat)
    (hk : k ≤ 101) (hprev : ∀ j, j < k → notFoundYet (client hash j)) :
    (∀ e, (waitForReceipt client hash).err = some e → e.Error ≠ "not found") ∧
    (notFoundYet (client hash k) → k ≤ 100 →
      waitForReceipt client hash
        = waitForReceiptLoop client hash (k + 1) (k + 1) (k + 1) (50 * (k + 1)) ∧
      k + 2 ≤ (waitForReceipt client hash).lookups) ∧
    (notFoundYet (client hash k) → k = 101 →
      waitForReceipt client hash
        = { receipt := none, err := some (GoError.errorf "timeout" []), lookups := 102,
            sleeps := 101, sleptMs := 50 * 101 }) ∧
    (∀ e, (client hash k).2 = some e → e.Error ≠ "not found" →
      waitForReceipt client hash
        = { receipt := none, err := some e, lookups := k + 1, sleeps := k,
            sleptMs := 50 * k }) ∧
    (∀ r, (client hash k).1 = some r → isOtherError (client hash k).2 = false →
      waitForReceipt client hash
        = { receipt := some r, err := none, lookups := k + 1, sleeps := k,
            sleptMs := 50 * k }) := by
  have hpre : waitForReceipt client hash = waitForReceiptLoop client hash k k k (50 * k) := by
    have := waitForReceiptLoop_prefix client hash k 0 0 0 0 (by omega)
      (by intro j hj; simpa using hprev j hj)
    simpa [waitForReceipt] using this
  refine ⟨?_, ?_, ?_, ?_, ?_⟩
  · intro e he
    exact waitForReceiptLoop_err_ne_notFound client hash (101 - 0) 0 0 0 0 rfl e he
  · intro hsoft hlt
    have hstep : waitForReceipt client hash
        = waitForReceiptLoop client hash (k + 1) (k + 1) (k + 1) (50 * (k + 1)) := by
      rw [hpre, waitForReceiptLoop_notFoundYet client hash k k k (50 * k) hlt hsoft]
      congr 1
    refine ⟨hstep, ?_⟩
    have hb := waitForReceiptLoop_bounds client hash (101 - (k + 1)) (k + 1) (k + 1) (k + 1)
      (50 * (k + 1)) rfl (by omega)
    rw [hstep]
    simp only [] at hb
    omega
  · intro hsoft hlast
    subst hlast
    rw [hpre]
    exact waitForReceiptLoop_timeout client hash 101 101 101 (50 * 101) (by omega) hsoft
  · intro e herr hne
    rw [hpre]
    exact waitForReceiptLoop_otherError client hash k k k (50 * k) e herr hne
  · intro r hrec herr
    rw [hpre]
    exact waitForReceiptLoop_receipt client hash k k k (50 * k) r hrec herr

/-- Witness of C6: `failsOnThird` answers "not found" twice and then fails with "connection
refused"; `waitForReceipt` returns that error after three lookups. -/
theorem waitForReceipt_answers_witness :
    waitForReceipt failsOnThird 7
      = { receipt := none, err := some (GoError.errorsNew "connection refused"),
          lookups := 3, sleeps := 2, sleptMs := 100 } :=
  (waitForReceipt_answers failsOnThird 7 2 (by decide)
    (by
      intro j hj
      have hj2 : j ≠ 2 := by omega
      simp [notFoundYet, failsOnThird, hj2, GoError.Error])).2.2.2.1
    (GoError.errorsNew "connection refused") (by simp [failsOnThird]) (by decide)

/-- C7: receipt polling has an attempt ceiling. For every receipt source `waitForReceipt`
returns after at most 102 lookups and 101 sleeps; against a source that never returns a
receipt and only answers "not found" (or nil, nil) it makes exactly 102 lookups, with 101
sleeps of 50ms between them, and returns a nil receipt with the error "timeout". -/
theorem waitForReceipt_ceiling (client : ReceiptSource) (hash : Hash) :
    (waitForReceipt client hash).lookups ≤ 102 ∧
    (waitForReceipt client hash).sleeps ≤ 101 ∧
    (waitForReceipt client hash).sleptMs = 50 * (waitForReceipt client hash).sleeps ∧
    ((∀ n, notFoundYet (client hash n)) →
      waitForReceipt client hash
        = { receipt := none, err := some (GoError.errorf "timeout" []), lookups := 102,
            sleeps := 101, sleptMs := 101 * 50 }) ∧
    (GoError.errorf "timeout" []).Error = "timeout" := by
  have hb := waitForReceiptLoop_bounds client hash (101 - 0) 0 0 0 0 rfl (by omega)
  simp only [] at hb
  refine ⟨?_, ?_, ?_, ?_, by decide⟩
  · unfold waitForReceipt; omega
  · unfold waitForReceipt; omega
  · unfold waitForReceipt; omega
  · intro hall
    have hpre := waitForReceiptLoop_prefix client hash 101 0 0 0 0 (by omega)
      (by intro j _; simpa using hall j)
    have hlast := waitForReceiptLoop_timeout client hash 101 101 101 (50 * 101) (by omega)
      (hall 101)
    unfold waitForReceipt
    rw [hpre]
    simpa using hlast

/-- Witness of C7: `neverFound` never has the receipt; polling stops with "timeout" after 102
lookups and 101 sleeps. -/
theorem waitForReceipt_ceiling_witness :
    waitForReceipt neverFound 7
      = { receipt := none, err := some (GoError.errorf "timeout" []), lookups := 102,
          sleeps := 101, sleptMs := 101 * 50 } :=
  (waitForReceipt_ceiling neverFound 7).2.2.2.1
    (by
      intro n
      by_cases h : n % 2 = 0 <;> simp [notFoundYet, neverFound, h, GoError.Error])

end PolygonEdge

/-! ## Start-up and shutdown of the relayer -/

namespace PolygonEdge

/-- C9 at the failing input: when `ListenAndServe` fails because the address is in use, the
REST-server task prints the error and returns it without calling `cancel`, whereas on
`http.ErrServerClosed` it calls `cancel` and returns nil. -/
theorem restServerTask_error_path_no_cancel :
    errorsIs (some addressInUse) ErrServerClosed = false ∧
    restServerTask "127.0.0.1:8198" (some addressInUse)
      = ([TaskCall.Printf "Rest server is listening on %s...\n",
          TaskCall.ListenAndServe "127.0.0.1:8198",
          TaskCall.PrintErrf "Rest server has been terminated with an error = %v\n"],
         some addressInUse) ∧
    TaskCall.cancel ∉ (restServerTask "127.0.0.1:8198" (some addressInUse)).1 ∧
    TaskCall.cancel ∈ (restServerTask "127.0.0.1:8198"
      (some (GoError.sentinel ErrServerClosed))).1 ∧
    (restServerTask "127.0.0.1:8198"
      (some (GoError.sentinel ErrServerClosed))).2 = none := by
  refine ⟨by decide, by decide, by decide, by decide, by decide⟩

end PolygonEdge

/-! ## The rootchain `emit` command -/

namespace PolygonEdge.Emit

/-- C10 at the failing input: for one wallet with a 20-byte address, `createTxInput` builds
the transaction, `SendTxn` fails on it with "nonce too low", the task returns nil, `Wait`
returns nil, and `runCommand` sets the command result and no error. -/
theorem runCommand_send_error_not_reported :
    createTxInput sendFails "tuple(address,uint256)" [sampleWallet, "100"]
      = Except.ok sampleTxn ∧
    sendFails.SendTxn 0 sampleTxn = some (GoError.errorsNew "nonce too low") ∧
    emitTask sendFails "tuple(address,uint256)" 0 sampleWallet "100" none = none ∧
    spawnTasks sendFails 0 sendFails.params.wallets = some [(sampleWallet, "100")] ∧
    Group.Wait sendFails "tuple(address,uint256)" [(sampleWallet, "100")] = none ∧
    runCommand sendFails
      = some { err := none,
               commandResult := some { Address := "0x0000000000000000000000000000000000001010",
                                       Wallets := [sampleWallet], Amounts := ["100"] },
               written := true } := by
  refine ⟨by rfl, by decide, by decide, by decide, by decide, by decide⟩

end PolygonEdge.Emit

